import Mathlib

/-!
# Verification of the `table` storage engine (`src/storage.rs`)

Shallow embedding of the typed heterogeneous table store: `TableId` handles,
JSON-encoded entry keys, the type-erasure/downcast layer (`dyn TableValue`),
and the `Storage` struct with its live cache (`entries`) and backing store
(`database`).

Modelling conventions:
* Rust runtime values of storable/key types are drawn from a small universe
  `Val` with decidable equality.
* A Rust type implementing `Serialize`/`DeserializeOwned` is modelled by its
  serde behaviour: a partial serializer (`serde_json::to_vec`, which can fail)
  and a deserializer returning `Except` (serde's `Result`).
* `HashMap` is modelled by an association list with replace-on-insert
  (`mapInsert` erases the old binding), first-match lookup.
* A Rust panic (`.unwrap()` on a failing value) is `Option.none` at the
  operation's result type; `anyhow::Result<T>` is `Except String T`.
-/

/-- The universe of Rust runtime values used by the model (e.g. `()` and
`u64` in the repository's driver). -/
inductive Val where
  | unit : Val
  | nat : Nat → Val
  deriving DecidableEq, Repr

/-- Serialized byte blobs (`Vec<u8>`). -/
abbrev Bytes := List Nat

/-- A Rust key type `K: Serialize`, modelled by its `serde_json::to_vec`
behaviour; `none` models a serialization error (which the code unwraps). -/
structure KeyType where
  toVec : Val → Option Bytes

/-- A Rust type implementing the `TableValue` trait (`storage.rs` lines
11–20 and the blanket impl at 46–57): its `TypeId` tag, its erased
serializer (`erased_serialize` into a JSON serializer, fallible), and its
`V::deserialize` (fallible, serde `Result`). -/
structure TableValueType where
  tag : Nat
  serialize : Val → Option Bytes
  deserialize : Bytes → Except String Val

/-- Model of `Box<dyn TableValue>`: an ownership-erased value that recorded its
concrete type's `TypeId` at construction (`TableValue::type_id`). -/
structure DynTableValue where
  tag : Nat
  val : Val
  deriving DecidableEq, Repr

/-- Model of `Box::new(value)` for `value` of concrete storable type `S`: the box
records `TypeId::of::<S>()` as its tag. -/
def DynTableValue.boxNew (S : TableValueType) (v : Val) : DynTableValue :=
  ⟨S.tag, v⟩

/-- Model of `<dyn TableValue>::is::<T>` (`storage.rs` lines 23–27): compare
`TypeId::of::<T>()` with the boxed value's recorded tag. -/
def DynTableValue.is (b : DynTableValue) (T : TableValueType) : Bool :=
  T.tag == b.tag

/-- Model of `<dyn TableValue>::downcast_ref::<T>` (`storage.rs` lines 29–35): if the
tag matches, reinterpret the box's payload as `T` (the unsafe cast returns
the stored value unchanged); otherwise `None`. -/
def DynTableValue.downcast_ref (b : DynTableValue) (T : TableValueType) : Option Val :=
  if b.is T then some b.val else none

/-- Model of `<dyn TableValue>::downcast_mut::<T>` (`storage.rs` lines 37–43): same
check as `downcast_ref`, through an exclusive reference. -/
def DynTableValue.downcast_mut (b : DynTableValue) (T : TableValueType) : Option Val :=
  if b.is T then some b.val else none

/-- Model of `TableId<K, V>` (`storage.rs` lines 59–63): a stable numeric id; the
phantom type parameters are carried as the serde behaviour of `K` and `V`
(fixed at each monomorphized call site). -/
structure TableId where
  id : Nat
  K : KeyType
  V : TableValueType

/-- Model of `TableEntry` (`storage.rs` lines 65–69): the map key, the pair of the
table's numeric id and the JSON-serialized key bytes. -/
structure TableEntry where
  id : Nat
  key : Bytes
  deriving DecidableEq, Repr

/-- Model of `TableEntry::from_key` (`storage.rs` lines 71–78):
`serde_json::to_vec(key).unwrap()` — `none` models the panic on a key whose
JSON encoding fails. -/
def TableEntry.from_key (K : KeyType) (table_id : Nat) (key : Val) : Option TableEntry :=
  match K.toVec key with
  | some bs => some ⟨table_id, bs⟩
  | none => none

/-- Remove every binding of key `k` from an association list (the
replacement part of `HashMap::insert`). -/
def mapErase (k : TableEntry) : List (TableEntry × β) → List (TableEntry × β)
  | [] => []
  | (k', v) :: rest =>
      if k' = k then mapErase k rest else (k', v) :: mapErase k rest

/-- Model of `HashMap::insert`: bind `k` to `v`, replacing any prior binding. -/
def mapInsert (k : TableEntry) (v : β) (m : List (TableEntry × β)) :
    List (TableEntry × β) :=
  (k, v) :: mapErase k m

/-- Model of `HashMap::get` / `contains_key`: first binding of `k`, if any. -/
def mapLookup (k : TableEntry) : List (TableEntry × β) → Option β
  | [] => none
  | (k', v) :: rest => if k' = k then some v else mapLookup k rest

/-- Model of `Storage` (`storage.rs` lines 80–83): the live cache `entries` of erased
values and the backing store `database` of serialized bytes. -/
structure Storage where
  entries : List (TableEntry × DynTableValue)
  database : List (TableEntry × Bytes)
  deriving DecidableEq, Repr

/-- Model of `Storage::new` (`storage.rs` lines 86–91). -/
def Storage.new : Storage := ⟨[], []⟩

/-- Model of `Storage::ensure_cached_table_entry` (`storage.rs` lines 93–110):
if cached, no-op; if absent from the backing store too, no-op; otherwise
deserialize the stored bytes as `V` and insert the box into the cache.
Returns the post-state together with the `Result<()>`; on a decode error
the early `?` return leaves the state unchanged. -/
def Storage.ensure_cached_table_entry (V : TableValueType) (table_entry : TableEntry)
    (s : Storage) : Storage × Except String Unit :=
  if (mapLookup table_entry s.entries).isSome then
    (s, .ok ())
  else
    match mapLookup table_entry s.database with
    | none => (s, .ok ())
    | some bytes =>
      match V.deserialize bytes with
      | .error e => (s, .error e)
      | .ok value =>
          ({ s with entries :=
              mapInsert table_entry (DynTableValue.boxNew V value) s.entries },
           .ok ())

/-- Model of `Storage::contains_table_entry` (`storage.rs` lines 112–128): true iff
the entry key is in the live cache or the backing store. `none` models the
panic when the key's JSON encoding fails inside `TableEntry::from_key`. -/
def Storage.contains_table_entry (t : TableId) (key : Val) (s : Storage) :
    Option (Storage × Except String Bool) :=
  match TableEntry.from_key t.K t.id key with
  | none => none
  | some table_entry =>
    if (mapLookup table_entry s.entries).isSome then
      some (s, .ok true)
    else if (mapLookup table_entry s.database).isSome then
      some (s, .ok true)
    else
      some (s, .ok false)

/-- Model of `Storage::put_table_entry` (`storage.rs` lines 130–141): encode the key
(panic on failure), serialize the value to JSON bytes (panic on failure,
`erased_serialize(..).unwrap()`), write the bytes into the backing store and
the boxed value into the live cache, each replacing any prior binding. -/
def Storage.put_table_entry (t : TableId) (key : Val) (value : Val) (s : Storage) :
    Option Storage :=
  match TableEntry.from_key t.K t.id key with
  | none => none
  | some table_entry =>
    match t.V.serialize value with
    | none => none
    | some writer =>
        some { database := mapInsert table_entry writer s.database,
               entries := mapInsert table_entry (DynTableValue.boxNew t.V value) s.entries }

/-- Model of `Storage::borrow_table_entry` (`storage.rs` lines 143–155): encode the
key (panic on failure), hydrate the cache (propagating a decode error), then
`get(..).unwrap().downcast_ref::<V>().unwrap()` — either unwrap failing is a
panic (`none`). -/
def Storage.borrow_table_entry (t : TableId) (key : Val) (s : Storage) :
    Option (Storage × Except String Val) :=
  match TableEntry.from_key t.K t.id key with
  | none => none
  | some table_entry =>
    match Storage.ensure_cached_table_entry t.V table_entry s with
    | (s', .error e) => some (s', .error e)
    | (s', .ok ()) =>
      match mapLookup table_entry s'.entries with
      | none => none
      | some entry =>
        match entry.downcast_ref t.V with
        | none => none
        | some v => some (s', .ok v)

/-- Model of `Storage::borrow_table_entry_mut` (`storage.rs` lines 157–169): same
hydrate-then-fetch contract as `borrow_table_entry`, via `get_mut` and
`downcast_mut`. -/
def Storage.borrow_table_entry_mut (t : TableId) (key : Val) (s : Storage) :
    Option (Storage × Except String Val) :=
  match TableEntry.from_key t.K t.id key with
  | none => none
  | some table_entry =>
    match Storage.ensure_cached_table_entry t.V table_entry s with
    | (s', .error e) => some (s', .error e)
    | (s', .ok ()) =>
      match mapLookup table_entry s'.entries with
      | none => none
      | some entry =>
        match entry.downcast_mut t.V with
        | none => none
        | some v => some (s', .ok v)

/-- Model of the caller-side mutation through the reference returned by
`borrow_table_entry_mut` (as in the driver's `*counter -= 1`): the `&mut V`
points at the boxed entry in the live cache, so assigning `vNew` through it
replaces that box's payload and touches nothing else — in particular not the
backing store. -/
def Storage.writeThroughMut (t : TableId) (key : Val) (vNew : Val) (s : Storage) :
    Option (Storage × Except String Unit) :=
  match TableEntry.from_key t.K t.id key with
  | none => none
  | some table_entry =>
    match Storage.borrow_table_entry_mut t key s with
    | none => none
    | some (s', .error e) => some (s', .error e)
    | some (s', .ok _) =>
      match mapLookup table_entry s'.entries with
      | none => none
      | some entry =>
          some ({ s' with entries :=
                    mapInsert table_entry ⟨entry.tag, vNew⟩ s'.entries },
                .ok ())

/-- Observable outcome of `borrow_table_entry` (the `Result<&V>` handed to
the caller, or the panic), dropping the post-state. -/
def Storage.borrowResult (t : TableId) (key : Val) (s : Storage) :
    Option (Except String Val) :=
  (Storage.borrow_table_entry t key s).map Prod.snd

/-- Canonical byte encoding of a model value, standing in for its JSON
encoding (`serde_json`); injective on `Val`. -/
def encodeVal : Val → Bytes
  | .unit => [0]
  | .nat n => [1, n]

/-- Decoder matching `encodeVal`; any other byte shape is a decode error
(a corrupt blob). -/
def decodeVal : Bytes → Except String Val
  | [0] => .ok .unit
  | [1, n] => .ok (.nat n)
  | _ => .error "invalid value bytes"

/-- The key type `()` of the driver's counter table: every value encodes. -/
def unitKeyType : KeyType := ⟨fun v => some (encodeVal v)⟩

/-- A key type whose JSON serialization always fails (e.g. a map with
non-string keys under `serde_json`). -/
def failingKeyType : KeyType := ⟨fun _ => none⟩

/-- The storable type `u64` of the driver's counter table, with tag 1
standing for `TypeId::of::<u64>()`. -/
def u64ValueType : TableValueType := ⟨1, fun v => some (encodeVal v), decodeVal⟩

/-- A second storable type with a distinct `TypeId` tag. -/
def unitValueType : TableValueType := ⟨2, fun v => some (encodeVal v), decodeVal⟩

/-- The driver's `COUNTER_TABLE_ID` (`main.rs` line 7). -/
def counterTable : TableId := ⟨0, unitKeyType, u64ValueType⟩

/-- A table with a different numeric id but the same key encoding as
`counterTable`. -/
def otherTable : TableId := ⟨1, unitKeyType, u64ValueType⟩

/-- A table whose key type fails to serialize. -/
def failingKeyTable : TableId := ⟨2, failingKeyType, u64ValueType⟩

theorem mapLookup_mapErase_ne (k k' : TableEntry) (m : List (TableEntry × β))
    (h : k' ≠ k) : mapLookup k' (mapErase k m) = mapLookup k' m := by
  induction m with
  | nil => rfl
  | cons p rest ih =>
    obtain ⟨a, b⟩ := p
    by_cases hak : a = k
    · subst hak
      simp [mapErase, mapLookup, Ne.symm h, ih]
    · simp [mapErase, mapLookup, hak, ih]

theorem mapLookup_mapInsert_self (k : TableEntry) (v : β) (m : List (TableEntry × β)) :
    mapLookup k (mapInsert k v m) = some v := by
  simp [mapInsert, mapLookup]

theorem mapLookup_mapInsert_ne (k k' : TableEntry) (v : β) (m : List (TableEntry × β))
    (h : k' ≠ k) : mapLookup k' (mapInsert k v m) = mapLookup k' m := by
  simp only [mapInsert, mapLookup]
  rw [if_neg (Ne.symm h)]
  exact mapLookup_mapErase_ne k k' m h

theorem borrow_after_put
    (t : TableId) (k v : Val) (s s' : Storage)
    (hput : Storage.put_table_entry t k v s = some s') :
    Storage.borrow_table_entry t k s' = some (s', Except.ok v) := by
  cases hfk : TableEntry.from_key t.K t.id k with
  | none => simp [Storage.put_table_entry, hfk] at hput
  | some te =>
    cases hser : t.V.serialize v with
    | none => simp [Storage.put_table_entry, hfk, hser] at hput
    | some writer =>
      simp only [Storage.put_table_entry, hfk, hser, Option.some.injEq] at hput
      subst hput
      simp [Storage.borrow_table_entry, hfk, Storage.ensure_cached_table_entry,
            mapLookup_mapInsert_self, DynTableValue.downcast_ref, DynTableValue.is,
            DynTableValue.boxNew]

/-- C1. Round-trip: whenever `put_table_entry(t, k, v)` succeeds (the key's
JSON encoding and the value's serialization succeed — `k` encodable, `v`
storable), `borrow_table_entry(t, &k)` on the resulting store returns `Ok`
of a reference equal to `v`, without touching the store further. -/
theorem put_then_borrow_roundtrip
    (t : TableId) (k v : Val) (s s' : Storage)
    (hput : Storage.put_table_entry t k v s = some s') :
    Storage.borrow_table_entry t k s' = some (s', Except.ok v) :=
  borrow_after_put t k v s s' hput

theorem put_then_borrow_roundtrip_witness :
    Storage.put_table_entry counterTable Val.unit (Val.nat 3) Storage.new =
      some ⟨[(⟨0, [0]⟩, ⟨1, Val.nat 3⟩)], [(⟨0, [0]⟩, [1, 3])]⟩ ∧
    Storage.borrow_table_entry counterTable Val.unit
        ⟨[(⟨0, [0]⟩, ⟨1, Val.nat 3⟩)], [(⟨0, [0]⟩, [1, 3])]⟩ =
      some (⟨[(⟨0, [0]⟩, ⟨1, Val.nat 3⟩)], [(⟨0, [0]⟩, [1, 3])]⟩, Except.ok (Val.nat 3)) :=
  ⟨by decide,
   put_then_borrow_roundtrip counterTable Val.unit (Val.nat 3) Storage.new _ (by decide)⟩

/-- C2. Overwrite: after `put(t, k, v1)` then `put(t, k, v2)` (both
succeeding), `borrow(t, &k)` returns `Ok v2`; moreover `put` replaced both
the cached box and the backing-store bytes for that entry key with those of
`v2` unconditionally, so `v1` is gone from both maps at that key. -/
theorem put_put_overwrite
    (t : TableId) (k v1 v2 : Val) (s s1 s2 : Storage)
    (h1 : Storage.put_table_entry t k v1 s = some s1)
    (h2 : Storage.put_table_entry t k v2 s1 = some s2) :
    Storage.borrow_table_entry t k s2 = some (s2, Except.ok v2) ∧
    ∀ te bs2, TableEntry.from_key t.K t.id k = some te →
      t.V.serialize v2 = some bs2 →
      mapLookup te s2.entries = some (DynTableValue.boxNew t.V v2) ∧
      mapLookup te s2.database = some bs2 := by
  refine ⟨borrow_after_put t k v2 s1 s2 h2, ?_⟩
  intro te bs2 hfk hser
  simp only [Storage.put_table_entry, hfk, hser, Option.some.injEq] at h2
  subst h2
  simp [mapLookup_mapInsert_self]

theorem put_put_overwrite_witness :
    Storage.borrow_table_entry counterTable Val.unit
        ⟨[(⟨0, [0]⟩, ⟨1, Val.nat 4⟩)], [(⟨0, [0]⟩, [1, 4])]⟩ =
      some (⟨[(⟨0, [0]⟩, ⟨1, Val.nat 4⟩)], [(⟨0, [0]⟩, [1, 4])]⟩, Except.ok (Val.nat 4)) ∧
    mapLookup ⟨0, [0]⟩ [((⟨0, [0]⟩ : TableEntry), (⟨1, Val.nat 4⟩ : DynTableValue))] =
      some (DynTableValue.boxNew u64ValueType (Val.nat 4)) ∧
    mapLookup ⟨0, [0]⟩ [((⟨0, [0]⟩ : TableEntry), ([1, 4] : Bytes))] = some [1, 4] := by
  have h := put_put_overwrite counterTable Val.unit (Val.nat 3) (Val.nat 4) Storage.new
    ⟨[(⟨0, [0]⟩, ⟨1, Val.nat 3⟩)], [(⟨0, [0]⟩, [1, 3])]⟩
    ⟨[(⟨0, [0]⟩, ⟨1, Val.nat 4⟩)], [(⟨0, [0]⟩, [1, 4])]⟩
    (by decide) (by decide)
  exact ⟨h.1, (h.2 ⟨0, [0]⟩ [1, 4] (by decide) (by decide)).1, (h.2 ⟨0, [0]⟩ [1, 4] (by decide) (by decide)).2⟩

/-- C3. Lazy hydrate: after a successful `put(t, k, v)`, clearing the live
cache while retaining the backing store, `borrow(t, &k)` deserializes the
stored bytes, returns `Ok` of a value equal to `v`, and inserts the
rehydrated box back into the live cache (`hrt` is serde's round-trip
guarantee for the storable type at `v`). -/
theorem lazy_hydrate
    (t : TableId) (k v : Val) (s s1 : Storage) (te : TableEntry) (bs : Bytes)
    (hput : Storage.put_table_entry t k v s = some s1)
    (hfk : TableEntry.from_key t.K t.id k = some te)
    (hser : t.V.serialize v = some bs)
    (hrt : t.V.deserialize bs = Except.ok v) :
    ∃ s2, Storage.borrow_table_entry t k { s1 with entries := [] } =
            some (s2, Except.ok v) ∧
          mapLookup te s2.entries = some (DynTableValue.boxNew t.V v) ∧
          s2.database = s1.database := by
  simp only [Storage.put_table_entry, hfk, hser, Option.some.injEq] at hput
  subst hput
  refine ⟨⟨mapInsert te (DynTableValue.boxNew t.V v) [], mapInsert te bs s.database⟩, ?_, ?_, rfl⟩
  · simp [Storage.borrow_table_entry, hfk, Storage.ensure_cached_table_entry,
          mapLookup, mapLookup_mapInsert_self, hrt, DynTableValue.downcast_ref,
          DynTableValue.is, DynTableValue.boxNew]
  · simp [mapLookup_mapInsert_self]

theorem lazy_hydrate_witness :
    ∃ s2, Storage.borrow_table_entry counterTable Val.unit
            ⟨[], [(⟨0, [0]⟩, [1, 3])]⟩ = some (s2, Except.ok (Val.nat 3)) ∧
          mapLookup ⟨0, [0]⟩ s2.entries =
            some (DynTableValue.boxNew u64ValueType (Val.nat 3)) ∧
          s2.database = [(⟨0, [0]⟩, [1, 3])] :=
  lazy_hydrate counterTable Val.unit (Val.nat 3) Storage.new
    ⟨[(⟨0, [0]⟩, ⟨1, Val.nat 3⟩)], [(⟨0, [0]⟩, [1, 3])]⟩ ⟨0, [0]⟩ [1, 3]
    (by decide) (by decide) (by decide) rfl

/-- C4. Mutation non-propagation: after `put(t, k, v)`, mutating the
reference returned by `borrow_table_entry_mut(t, &k)` to `v'` leaves the
backing-store bytes for the entry key unchanged (still the serialization of
`v`), so a fresh cold-cache borrow rehydrated from the backing store still
returns `v`; only after a subsequent explicit `put(t, k, v')` does a
cold-cache borrow return `v'`. -/
theorem mutation_non_propagation
    (t : TableId) (k v vNew : Val) (s s1 s2 : Storage) (te : TableEntry) (bs : Bytes)
    (hfk : TableEntry.from_key t.K t.id k = some te)
    (hser : t.V.serialize v = some bs)
    (hput : Storage.put_table_entry t k v s = some s1)
    (hmut : Storage.writeThroughMut t k vNew s1 = some (s2, Except.ok ()))
    (hrt : t.V.deserialize bs = Except.ok v) :
    mapLookup te s2.database = some bs ∧
    (∃ s3, Storage.borrow_table_entry t k { s2 with entries := [] } =
             some (s3, Except.ok v)) ∧
    ∀ bs' s4, t.V.serialize vNew = some bs' →
      t.V.deserialize bs' = Except.ok vNew →
      Storage.put_table_entry t k vNew s2 = some s4 →
      ∃ s5, Storage.borrow_table_entry t k { s4 with entries := [] } =
              some (s5, Except.ok vNew) := by
  simp only [Storage.put_table_entry, hfk, hser, Option.some.injEq] at hput
  subst hput
  simp only [Storage.writeThroughMut, hfk, Storage.borrow_table_entry_mut,
             Storage.ensure_cached_table_entry, mapLookup_mapInsert_self,
             Option.isSome_some, if_pos, DynTableValue.downcast_mut,
             DynTableValue.is, DynTableValue.boxNew, beq_self_eq_true, if_true,
             Option.some.injEq, Prod.mk.injEq] at hmut
  obtain ⟨hs2, -⟩ := hmut
  subst hs2
  refine ⟨by simp [mapLookup_mapInsert_self], ?_, ?_⟩
  · refine ⟨⟨mapInsert te (DynTableValue.boxNew t.V v) [], mapInsert te bs s.database⟩, ?_⟩
    simp [Storage.borrow_table_entry, hfk, Storage.ensure_cached_table_entry,
          mapLookup, mapLookup_mapInsert_self, hrt, DynTableValue.downcast_ref,
          DynTableValue.is, DynTableValue.boxNew]
  · intro bs' s4 hser' hrt' hput'
    simp only [Storage.put_table_entry, hfk, hser', Option.some.injEq] at hput'
    subst hput'
    refine ⟨⟨mapInsert te (DynTableValue.boxNew t.V vNew) [],
             mapInsert te bs' (mapInsert te bs s.database)⟩, ?_⟩
    simp [Storage.borrow_table_entry, hfk, Storage.ensure_cached_table_entry,
          mapLookup, mapLookup_mapInsert_self, hrt', DynTableValue.downcast_ref,
          DynTableValue.is, DynTableValue.boxNew]

theorem mutation_non_propagation_witness :
    mapLookup ⟨0, [0]⟩ ([(⟨0, [0]⟩, [1, 3])] : List (TableEntry × Bytes)) = some [1, 3] ∧
    (∃ s3, Storage.borrow_table_entry counterTable Val.unit
             ⟨[], [(⟨0, [0]⟩, [1, 3])]⟩ = some (s3, Except.ok (Val.nat 3))) ∧
    (∃ s5, Storage.borrow_table_entry counterTable Val.unit
             ⟨[], [(⟨0, [0]⟩, [1, 2])]⟩ = some (s5, Except.ok (Val.nat 2))) := by
  have h := mutation_non_propagation counterTable Val.unit (Val.nat 3) (Val.nat 2)
    Storage.new ⟨[(⟨0, [0]⟩, ⟨1, Val.nat 3⟩)], [(⟨0, [0]⟩, [1, 3])]⟩
    ⟨[(⟨0, [0]⟩, ⟨1, Val.nat 2⟩)], [(⟨0, [0]⟩, [1, 3])]⟩ ⟨0, [0]⟩ [1, 3]
    (by decide) (by decide) (by decide) rfl rfl
  exact ⟨h.1, h.2.1,
         h.2.2 [1, 2] ⟨[(⟨0, [0]⟩, ⟨1, Val.nat 2⟩)], [(⟨0, [0]⟩, [1, 2])]⟩
           (by decide) rfl (by decide)⟩

theorem from_key_id (K : KeyType) (i : Nat) (k : Val) (te : TableEntry)
    (h : TableEntry.from_key K i k = some te) : te.id = i := by
  unfold TableEntry.from_key at h
  cases hkv : K.toVec k with
  | none => rw [hkv] at h; cases h
  | some kb => rw [hkv] at h; cases h; rfl

theorem ensure_of_cached (V : TableValueType) (te : TableEntry) (s : Storage)
    (b : DynTableValue) (h : mapLookup te s.entries = some b) :
    Storage.ensure_cached_table_entry V te s = (s, Except.ok ()) := by
  simp [Storage.ensure_cached_table_entry, h]

theorem ensure_of_absent (V : TableValueType) (te : TableEntry) (s : Storage)
    (he : mapLookup te s.entries = none) (hd : mapLookup te s.database = none) :
    Storage.ensure_cached_table_entry V te s = (s, Except.ok ()) := by
  simp [Storage.ensure_cached_table_entry, he, hd]

theorem ensure_of_decode_error (V : TableValueType) (te : TableEntry) (s : Storage)
    (bytes : Bytes) (e : String)
    (he : mapLookup te s.entries = none) (hd : mapLookup te s.database = some bytes)
    (hv : V.deserialize bytes = Except.error e) :
    Storage.ensure_cached_table_entry V te s = (s, Except.error e) := by
  simp [Storage.ensure_cached_table_entry, he, hd, hv]

theorem ensure_of_decode_ok (V : TableValueType) (te : TableEntry) (s : Storage)
    (bytes : Bytes) (value : Val)
    (he : mapLookup te s.entries = none) (hd : mapLookup te s.database = some bytes)
    (hv : V.deserialize bytes = Except.ok value) :
    Storage.ensure_cached_table_entry V te s =
      ({ s with entries := mapInsert te (DynTableValue.boxNew V value) s.entries },
       Except.ok ()) := by
  simp [Storage.ensure_cached_table_entry, he, hd, hv]

theorem borrowResult_congr
    (t : TableId) (k : Val) (s s' : Storage)
    (h : ∀ te, TableEntry.from_key t.K t.id k = some te →
        mapLookup te s'.entries = mapLookup te s.entries ∧
        mapLookup te s'.database = mapLookup te s.database) :
    Storage.borrowResult t k s' = Storage.borrowResult t k s := by
  cases hfk : TableEntry.from_key t.K t.id k with
  | none => simp [Storage.borrowResult, Storage.borrow_table_entry, hfk]
  | some te =>
    obtain ⟨he, hd⟩ := h te hfk
    cases hE : mapLookup te s.entries with
    | some b =>
      simp only [Storage.borrowResult, Storage.borrow_table_entry, hfk,
                 ensure_of_cached t.V te s' b (he.trans hE),
                 ensure_of_cached t.V te s b hE, he, hE]
      cases b.downcast_ref t.V <;> simp
    | none =>
      cases hD : mapLookup te s.database with
      | none =>
        simp [Storage.borrowResult, Storage.borrow_table_entry, hfk,
              ensure_of_absent t.V te s' (he.trans hE) (hd.trans hD),
              ensure_of_absent t.V te s hE hD, he, hE]
      | some bytes =>
        cases hV : t.V.deserialize bytes with
        | error e =>
          simp [Storage.borrowResult, Storage.borrow_table_entry, hfk,
                ensure_of_decode_error t.V te s' bytes e (he.trans hE) (hd.trans hD) hV,
                ensure_of_decode_error t.V te s bytes e hE hD hV]
        | ok value =>
          simp [Storage.borrowResult, Storage.borrow_table_entry, hfk,
                ensure_of_decode_ok t.V te s' bytes value (he.trans hE) (hd.trans hD) hV,
                ensure_of_decode_ok t.V te s bytes value hE hD hV,
                mapLookup_mapInsert_self, DynTableValue.downcast_ref,
                DynTableValue.is, DynTableValue.boxNew]

/-- C5. Type isolation: a successful `put` through a table id leaves every
entry of any table id with a different numeric identifier untouched in both
maps — even at identical serialized key bytes, since the map key is the pair
(numeric id, key bytes) jointly — and the observable outcome of `borrow`
through the other table id is unchanged. -/
theorem type_isolation
    (t1 t2 : TableId) (k1 v1 : Val) (s s' : Storage)
    (hid : t1.id ≠ t2.id)
    (hput : Storage.put_table_entry t1 k1 v1 s = some s') :
    (∀ kb : Bytes,
        mapLookup ⟨t2.id, kb⟩ s'.entries = mapLookup ⟨t2.id, kb⟩ s.entries ∧
        mapLookup ⟨t2.id, kb⟩ s'.database = mapLookup ⟨t2.id, kb⟩ s.database) ∧
    ∀ k2 : Val, Storage.borrowResult t2 k2 s' = Storage.borrowResult t2 k2 s := by
  cases hfk : TableEntry.from_key t1.K t1.id k1 with
  | none => simp [Storage.put_table_entry, hfk] at hput
  | some te1 =>
    cases hser : t1.V.serialize v1 with
    | none => simp [Storage.put_table_entry, hfk, hser] at hput
    | some bs =>
      simp only [Storage.put_table_entry, hfk, hser, Option.some.injEq] at hput
      subst hput
      have hte1 : te1.id = t1.id := from_key_id t1.K t1.id k1 te1 hfk
      constructor
      · intro kb
        have hne : (⟨t2.id, kb⟩ : TableEntry) ≠ te1 := by
          intro hcontra
          exact hid (by rw [← hte1, ← hcontra])
        exact ⟨mapLookup_mapInsert_ne te1 ⟨t2.id, kb⟩ _ _ hne,
               mapLookup_mapInsert_ne te1 ⟨t2.id, kb⟩ _ _ hne⟩
      · intro k2
        apply borrowResult_congr
        intro te2 hfk2
        have hte2 : te2.id = t2.id := from_key_id t2.K t2.id k2 te2 hfk2
        have hne2 : te2 ≠ te1 := by
          intro hcontra
          exact hid (by rw [← hte1, ← hcontra, hte2])
        exact ⟨mapLookup_mapInsert_ne te1 te2 _ _ hne2,
               mapLookup_mapInsert_ne te1 te2 _ _ hne2⟩

theorem type_isolation_witness :
    (mapLookup ⟨1, [0]⟩ ([(⟨0, [0]⟩, (⟨1, Val.nat 3⟩ : DynTableValue))]) =
       mapLookup ⟨1, [0]⟩ ([] : List (TableEntry × DynTableValue)) ∧
     mapLookup ⟨1, [0]⟩ ([(⟨0, [0]⟩, ([1, 3] : Bytes))]) =
       mapLookup ⟨1, [0]⟩ ([] : List (TableEntry × Bytes))) ∧
    Storage.borrowResult otherTable Val.unit
        ⟨[(⟨0, [0]⟩, ⟨1, Val.nat 3⟩)], [(⟨0, [0]⟩, [1, 3])]⟩ =
      Storage.borrowResult otherTable Val.unit Storage.new := by
  have h := type_isolation counterTable otherTable Val.unit (Val.nat 3) Storage.new
    ⟨[(⟨0, [0]⟩, ⟨1, Val.nat 3⟩)], [(⟨0, [0]⟩, [1, 3])]⟩ (by decide) (by decide)
  exact ⟨h.1 [0], h.2 Val.unit⟩

/-- C6. Downcast semantics: for an erased value boxed from a value `v` of
storable type `S`, `is::<T>()` is true iff `T`'s type tag equals the tag
recorded at construction (`S`'s tag; by Rust's `TypeId` guarantee this means
`T = S`); `downcast_ref::<T>()` returns `Some` of the original value exactly
when `is::<T>()` holds and `None` otherwise; and `downcast_mut::<T>()`
behaves identically. -/
theorem downcast_semantics (S T : TableValueType) (v : Val) :
    ((DynTableValue.boxNew S v).is T = true ↔ T.tag = S.tag) ∧
    (DynTableValue.boxNew S v).downcast_ref T =
      (if T.tag = S.tag then some v else none) ∧
    (DynTableValue.boxNew S v).downcast_mut T =
      (DynTableValue.boxNew S v).downcast_ref T := by
  refine ⟨?_, ?_, rfl⟩
  · simp [DynTableValue.is, DynTableValue.boxNew]
  · simp only [DynTableValue.downcast_ref, DynTableValue.is, DynTableValue.boxNew]
    by_cases h : T.tag = S.tag <;> simp [h]

/-- C7. Missing-entry borrow is fatal: when the entry key for `(t, k)` is in
neither the live cache nor the backing store, `borrow_table_entry` and
`borrow_table_entry_mut` panic (model: `none`) instead of returning an error
value; and under the precondition that the entry exists in at least one of
the two maps, the panicking `entries.get(..).unwrap()` branch is
unreachable — after a successful hydrate the cache always holds the entry. -/
theorem missing_entry_borrow_is_fatal
    (t : TableId) (k : Val) (te : TableEntry) (s : Storage)
    (hfk : TableEntry.from_key t.K t.id k = some te) :
    (mapLookup te s.entries = none → mapLookup te s.database = none →
      Storage.borrow_table_entry t k s = none ∧
      Storage.borrow_table_entry_mut t k s = none) ∧
    ((mapLookup te s.entries).isSome ∨ (mapLookup te s.database).isSome →
      ∀ s', Storage.ensure_cached_table_entry t.V te s = (s', Except.ok ()) →
        (mapLookup te s'.entries).isSome) := by
  constructor
  · intro he hd
    constructor
    · simp [Storage.borrow_table_entry, hfk, ensure_of_absent t.V te s he hd, he]
    · simp [Storage.borrow_table_entry_mut, hfk, ensure_of_absent t.V te s he hd, he]
  · intro hpresent s' hens
    cases hE : mapLookup te s.entries with
    | some b =>
      rw [ensure_of_cached t.V te s b hE] at hens
      cases hens
      simp [hE]
    | none =>
      cases hD : mapLookup te s.database with
      | none =>
        rw [hE, hD] at hpresent
        simp at hpresent
      | some bytes =>
        cases hV : t.V.deserialize bytes with
        | error e =>
          rw [ensure_of_decode_error t.V te s bytes e hE hD hV] at hens
          cases hens
        | ok value =>
          rw [ensure_of_decode_ok t.V te s bytes value hE hD hV] at hens
          cases hens
          simp [mapLookup_mapInsert_self]

theorem missing_entry_borrow_is_fatal_witness :
    Storage.borrow_table_entry counterTable Val.unit Storage.new = none ∧
    Storage.borrow_table_entry_mut counterTable Val.unit Storage.new = none :=
  (missing_entry_borrow_is_fatal counterTable Val.unit ⟨0, [0]⟩ Storage.new
    (by decide)).1 rfl rfl

/-- C8. Existence probe: when the entry key for `(t, k)` exists,
`contains_table_entry` returns `Ok true` iff the key is in the live cache or
the backing store and `Ok false` otherwise, never returns `Err`, and leaves
the store (both maps) unchanged. -/
theorem contains_table_entry_probe
    (t : TableId) (k : Val) (te : TableEntry) (s : Storage)
    (hfk : TableEntry.from_key t.K t.id k = some te) :
    Storage.contains_table_entry t k s =
      some (s, Except.ok ((mapLookup te s.entries).isSome ||
                          (mapLookup te s.database).isSome)) := by
  simp only [Storage.contains_table_entry, hfk]
  cases mapLookup te s.entries <;> cases mapLookup te s.database <;> simp

theorem contains_table_entry_probe_witness :
    Storage.contains_table_entry counterTable Val.unit Storage.new =
      some (Storage.new, Except.ok false) ∧
    Storage.contains_table_entry counterTable Val.unit
        ⟨[], [(⟨0, [0]⟩, [1, 3])]⟩ =
      some (⟨[], [(⟨0, [0]⟩, [1, 3])]⟩, Except.ok true) :=
  ⟨contains_table_entry_probe counterTable Val.unit ⟨0, [0]⟩ Storage.new (by decide),
   contains_table_entry_probe counterTable Val.unit ⟨0, [0]⟩
     ⟨[], [(⟨0, [0]⟩, [1, 3])]⟩ (by decide)⟩

/-- C9. Decode-error propagation with atomicity: when the entry key is
absent from the live cache but its backing-store bytes fail to deserialize,
`borrow_table_entry` and `borrow_table_entry_mut` return `Err` carrying the
decode error (no panic), and the store is left exactly as it was — in
particular the live cache gains no entry for that key. -/
theorem decode_error_propagation
    (t : TableId) (k : Val) (te : TableEntry) (bs : Bytes) (e : String) (s : Storage)
    (hfk : TableEntry.from_key t.K t.id k = some te)
    (hent : mapLookup te s.entries = none)
    (hdb : mapLookup te s.database = some bs)
    (hde : t.V.deserialize bs = Except.error e) :
    Storage.borrow_table_entry t k s = some (s, Except.error e) ∧
    Storage.borrow_table_entry_mut t k s = some (s, Except.error e) := by
  constructor
  · simp [Storage.borrow_table_entry, hfk,
          ensure_of_decode_error t.V te s bs e hent hdb hde]
  · simp [Storage.borrow_table_entry_mut, hfk,
          ensure_of_decode_error t.V te s bs e hent hdb hde]

theorem decode_error_propagation_witness :
    Storage.borrow_table_entry counterTable Val.unit ⟨[], [(⟨0, [0]⟩, [9])]⟩ =
      some (⟨[], [(⟨0, [0]⟩, [9])]⟩, Except.error "invalid value bytes") ∧
    Storage.borrow_table_entry_mut counterTable Val.unit ⟨[], [(⟨0, [0]⟩, [9])]⟩ =
      some (⟨[], [(⟨0, [0]⟩, [9])]⟩, Except.error "invalid value bytes") :=
  decode_error_propagation counterTable Val.unit ⟨0, [0]⟩ [9] "invalid value bytes"
    ⟨[], [(⟨0, [0]⟩, [9])]⟩ (by decide) rfl rfl rfl

/-- C10. Key-encoding failure panics: if a key's JSON serialization fails,
every public operation — `put_table_entry`, `contains_table_entry`,
`borrow_table_entry`, `borrow_table_entry_mut` — panics (model: `none`)
through the unwrapped `serde_json::to_vec` in `TableEntry::from_key`, rather
than returning an error. -/
theorem key_encoding_failure_panics
    (t : TableId) (k v : Val) (s : Storage)
    (hk : t.K.toVec k = none) :
    Storage.put_table_entry t k v s = none ∧
    Storage.contains_table_entry t k s = none ∧
    Storage.borrow_table_entry t k s = none ∧
    Storage.borrow_table_entry_mut t k s = none := by
  have hfk : TableEntry.from_key t.K t.id k = none := by
    simp [TableEntry.from_key, hk]
  exact ⟨by simp [Storage.put_table_entry, hfk],
         by simp [Storage.contains_table_entry, hfk],
         by simp [Storage.borrow_table_entry, hfk],
         by simp [Storage.borrow_table_entry_mut, hfk]⟩

theorem key_encoding_failure_panics_witness :
    Storage.put_table_entry failingKeyTable Val.unit (Val.nat 3) Storage.new = none ∧
    Storage.contains_table_entry failingKeyTable Val.unit Storage.new = none ∧
    Storage.borrow_table_entry failingKeyTable Val.unit Storage.new = none ∧
    Storage.borrow_table_entry_mut failingKeyTable Val.unit Storage.new = none :=
  key_encoding_failure_panics failingKeyTable Val.unit (Val.nat 3) Storage.new rfl
